import Mathlib

/-!
# Verification of the styxy MCP server's daemon-communication layer

This file is a shallow embedding, in Lean, of the JavaScript source of the
styxy MCP server (`styxyClient.js`, `singleton.js`), together with theorems
settling the frozen claims about its specification.

Modelling conventions:
* JavaScript strings are modelled as `String` / `List Char`; the handful of
  string operations the source uses (`includes`, `split`, `trim`, regex
  digit extraction, the two global-regex scans) are implemented explicitly
  below, mirroring the semantics of the JavaScript string/RegExp methods
  actually invoked.
* JavaScript dynamic objects (daemon responses, CLI parse results) are
  modelled by the `JsonVal` type; an object's field set is its list of keys
  in insertion order, exactly as a JS object literal builds it.
* Exceptions are modelled by `Except String` carrying the message; external
  effects (`child_process.exec`, `JSON.parse` of externally produced text,
  the socket, the filesystem, process liveness) are modelled by explicit
  environment records supplied to each operation.
* `async` control flow is resolved to its settled outcome.  One point needs
  care: in `sendDaemonCommand` the source has `return new Promise(...)`
  inside `try { ... } catch { ... }` — in JavaScript the `catch` only sees
  exceptions thrown while the body runs; a rejection of the *returned*
  promise happens after the body has completed and is therefore NOT routed
  to the `catch` (that would require `return await ...`).  The embedding of
  `sendDaemonCommand` reflects this.
-/

namespace Styxy

/-- JavaScript values as produced by `JSON.parse` and by the object literals
of the source.  An object is its fields in insertion order. -/
inductive JsonVal where
  | nul : JsonVal
  | bool (b : Bool) : JsonVal
  | num (n : Int) : JsonVal
  | str (s : String) : JsonVal
  | arr (elems : List JsonVal) : JsonVal
  | obj (fields : List (String × JsonVal)) : JsonVal

/-- Field lookup on a JS object (`v[k]`); `none` when absent or not an object. -/
def getF (v : JsonVal) (k : String) : Option JsonVal :=
  match v with
  | .obj fields => (fields.find? (fun p => p.1 == k)).map Prod.snd
  | _ => none

/-- The field set (key list, in insertion order) of a JS object. -/
def fieldNames : JsonVal → List String
  | .obj fields => fields.map Prod.fst
  | _ => []

/-- JavaScript truthiness of a value. -/
def truthy : JsonVal → Bool
  | .nul => false
  | .bool b => b
  | .num n => n != 0
  | .str s => s != ""
  | .arr _ => true
  | .obj _ => true

/-- `obj[k] = x` / spread-override: replace the first binding of `k` in
place, or append it when absent (insertion-order semantics of JS objects). -/
def setField (v : JsonVal) (k : String) (x : JsonVal) : JsonVal :=
  match v with
  | .obj fields =>
      if fields.any (fun p => p.1 == k) then
        .obj (fields.map (fun p => if p.1 == k then (k, x) else p))
      else
        .obj (fields ++ [(k, x)])
  | w => w

/-- `delete obj[k]`. -/
def removeField (v : JsonVal) (k : String) : JsonVal :=
  match v with
  | .obj fields => .obj (fields.filter (fun p => p.1 != k))
  | w => w

/-! ## String primitives used by the source -/

/-- `haystack.includes(needle)` on character lists: `needle` occurs as a
contiguous substring.  (JS `String.prototype.includes`.) -/
def containsSub (pat : List Char) (s : List Char) : Bool :=
  pat.isPrefixOf s ||
    match s with
    | [] => false
    | _ :: t => containsSub pat t

/-- `s.split('\n')` on character lists; mirrors the JS behaviour, e.g.
`"a\n"` splits to `["a", ""]` and `""` splits to `[""]`. -/
def splitLines : List Char → List (List Char)
  | [] => [[]]
  | c :: rest =>
    if c = '\n' then [] :: splitLines rest
    else
      match splitLines rest with
      | l :: ls => (c :: l) :: ls
      | [] => [[c]]

/-- `s.trim()`: strip leading and trailing whitespace. -/
def trim (s : List Char) : List Char :=
  ((s.dropWhile Char.isWhitespace).reverse.dropWhile Char.isWhitespace).reverse

/-- The first maximal digit run of a string: `s.match(/\d+/)` returning the
matched text, `none` when the string has no digit. -/
def firstDigitRun : List Char → Option (List Char)
  | [] => none
  | c :: rest =>
    if c.isDigit then some (c :: rest.takeWhile Char.isDigit)
    else firstDigitRun rest

/-- `parseInt` on a nonempty digit string (the only way the source calls it:
on text matched by `/\d+/`). -/
def digitsVal (ds : List Char) : Nat :=
  ds.foldl (fun n c => 10 * n + (c.toNat - 48)) 0

/-- Everything after the first occurrence of `pat` in `s`, or `none` when
`pat` does not occur (first step of JS `s.split(pat)[1]`). -/
def afterFirst (pat : List Char) (s : List Char) : Option (List Char) :=
  if pat.isPrefixOf s then some (s.drop pat.length)
  else
    match s with
    | [] => none
    | _ :: t => afterFirst pat t

/-- Take characters up to (excluding) the next occurrence of `pat`
(second step of JS `s.split(pat)[1]`: the piece ends at the next
separator). -/
def upToPat (pat : List Char) : List Char → List Char
  | [] => []
  | c :: t => if pat.isPrefixOf (c :: t) then [] else c :: upToPat pat t

/-- The literal of the global regex `/Released port (\d+)/g`:
its fixed textual part, 14 characters. -/
def relPat : List Char := "Released port ".data

/-- Worker for `scanPorts` with explicit fuel (the fuel is only a structural
termination device; `scanPorts` supplies enough for the whole input).
This is the left-to-right, non-overlapping scan performed by
`output.match(/Released port (\d+)/g)`: at each position, if the literal
matches and at least one digit follows, the digit run is captured and the
scan resumes after it; otherwise the scan moves one character right. -/
def scanPortsAux : Nat → List Char → List Nat
  | 0, _ => []
  | _, [] => []
  | fuel + 1, c :: rest =>
    if relPat.isPrefixOf (c :: rest) then
      let digs := (rest.drop 13).takeWhile Char.isDigit
      if digs = [] then scanPortsAux fuel rest
      else digitsVal digs :: scanPortsAux fuel ((rest.drop 13).dropWhile Char.isDigit)
    else scanPortsAux fuel rest

/-- All `Released port <N>` captures of `output`, in order (the JS global-regex
match list, each entry reduced to its digit value as `extractReleasedPorts`
does with `parseInt(match.match(/\d+/)[0])`). -/
def scanPorts (s : List Char) : List Nat :=
  scanPortsAux s.length s

/-- Leftmost match of `/(\d+)\s*-\s*(.+)/` against one line: a digit run,
optional whitespace, a dash, then at least one further character; returns
the port value and the trimmed description (`match[2].trim()` — leading
whitespace is consumed by `\s*`/backtracking and trailing whitespace by
`trim`, so the description is the trim of everything after the dash). -/
def portRowMatch : List Char → Option (Nat × List Char)
  | [] => none
  | c :: rest =>
    if c.isDigit then
      let digs := c :: rest.takeWhile Char.isDigit
      let afterDash := (rest.dropWhile Char.isDigit).dropWhile Char.isWhitespace
      match afterDash with
      | '-' :: tail =>
          if tail = [] then portRowMatch rest
          else some (digitsVal digs, trim tail)
      | _ => portRowMatch rest
    else portRowMatch rest

/-! ## The Command data model (the objects built by the main API methods) -/

structure AllocContext where
  serviceType : String
  projectName : String
  workingDir : String
  claudeSessionId : String
deriving Repr, DecidableEq

structure AllocPreferences where
  port : Option Nat
  duration : Option String
deriving Repr, DecidableEq

structure AllocMetadata where
  serviceName : Option String
  timestamp : String
deriving Repr, DecidableEq

structure StatusOptions where
  includePorts : Bool
  includeRecentErrors : Bool
deriving Repr, DecidableEq

structure LogsOptions where
  level : String
  timeRange : String
  filter : Option String
  limit : Nat
deriving Repr, DecidableEq

structure ConfigOptions where
  validate : Bool
  showSensitive : Bool
deriving Repr, DecidableEq

structure MetricsOptions where
  timeRange : String
  includePatterns : Bool
deriving Repr, DecidableEq

/-- The tagged union of commands sent through `sendDaemonCommand`, one
variant per `type` built by the main API methods of `StyxyClient`. -/
inductive Command where
  | allocate (context : AllocContext) (preferences : AllocPreferences)
      (metadata : AllocMetadata)
  | status (options : StatusOptions)
  | logs (options : LogsOptions)
  | config (options : ConfigOptions)
  | cleanup (force : Bool) (port : Option Nat) (sessionId : Option String)
  | metrics (options : MetricsOptions)
deriving Repr, DecidableEq

/-- The `type` string of a command (interpolated into the fallback's
"not implemented" message). -/
def Command.typeName : Command → String
  | .allocate .. => "allocate"
  | .status _ => "status"
  | .logs _ => "logs"
  | .config _ => "config"
  | .cleanup .. => "cleanup"
  | .metrics _ => "metrics"

/-! ## CLI Fallback Translator -/

/-- The error object `execAsync` rejects with: its `message`, and the
`stdout` captured before the failure (`error.stdout`, possibly empty). -/
structure ExecErr where
  message : String
  stdout : String
deriving Repr, DecidableEq

/-- Environment of the CLI fallback path: the outcome of running a shell
invocation (`execAsync`, keyed by the full command string), and the
behaviour of `JSON.parse` on externally produced text (`none` models a
parse exception). -/
structure CliEnv where
  exec : String → Except ExecErr String
  parseJson : String → Option JsonVal

/-- `styxy ${args.join(' ')}`. -/
def styxyInvocation (args : List String) : String :=
  "styxy " ++ String.intercalate " " args

/-- The argument list built by `cliAllocatePort` (JS truthiness: a preferred
port of `0` and an empty-string duration are falsy and not pushed). -/
def cliAllocateArgs (context : AllocContext) (preferences : AllocPreferences) :
    List String :=
  ["allocate", "--service-type", context.serviceType,
   "--project", context.projectName] ++
  (match preferences.port with
   | some p => if p = 0 then [] else ["--preferred-port", toString p]
   | none => []) ++
  (match preferences.duration with
   | some d => if d = "" then [] else ["--duration", d]
   | none => [])

/-- The per-service-type usage example of the CLI fallback. -/
def generateUsageExamplesCli (serviceType : String) (port : Nat) : String :=
  if serviceType = "web" then "npm run dev -- --port " ++ toString port
  else if serviceType = "api" then "PORT=" ++ toString port ++ " npm start"
  else if serviceType = "storybook" then
    "npm run storybook -- --port " ++ toString port
  else if serviceType = "database" then
    "# Configure your database to use port " ++ toString port
  else if serviceType = "testing" then "npm test -- --port " ++ toString port
  else "# Use port " ++ toString port ++ " for your " ++ serviceType ++ " service"

/-- Line 153 of the client: `portLine ? parseInt(portLine.match(/\d+/)[0]) : null`.
When the found line has no digit, `match` returns `null` and indexing it
throws a `TypeError`, modelled as the `.error` branch. -/
def portFromLine : Option (List Char) → Except String (Option Nat)
  | none => .ok none
  | some l =>
      match firstDigitRun l with
      | none => .error "Cannot read properties of null (reading '0')"
      | some ds => .ok (some (digitsVal ds))

/-- The first line of the (trimmed) CLI output that contains `Port:`. -/
def findPortLine (stdout : String) : Option (List Char) :=
  (splitLines (trim stdout.data)).find? (fun l => containsSub "Port:".data l)

/-- `cliAllocatePort`: run the CLI allocation and parse its output.  Every
exception thrown in the body (exec failure, the `TypeError` on a digitless
`Port:` line, the explicit unparseable-output throw) is caught and
re-thrown as `CLI allocation failed: <message>`. -/
def cliAllocatePort (env : CliEnv) (context : AllocContext)
    (preferences : AllocPreferences) : Except String JsonVal :=
  match env.exec (styxyInvocation (cliAllocateArgs context preferences)) with
  | .error e => .error ("CLI allocation failed: " ++ e.message)
  | .ok stdout =>
      match portFromLine (findPortLine stdout) with
      | .error typeErr => .error ("CLI allocation failed: " ++ typeErr)
      | .ok port? =>
          -- `if (!port) throw new Error('Failed to parse allocated port…')`:
          -- both `null` and the falsy port `0` take the throw.
          match port? with
          | none =>
              .error
                "CLI allocation failed: Failed to parse allocated port from styxy output"
          | some port =>
              if port = 0 then
                .error
                  "CLI allocation failed: Failed to parse allocated port from styxy output"
              else
                .ok (.obj
                  [("allocated_port", .num port),
                   ("service_url", .str ("http://localhost:" ++ toString port)),
                   ("cleanup_command", .str ("styxy release " ++ toString port)),
                   ("duration", .str
                      (match preferences.duration with
                       | some d => if d = "" then "session" else d
                       | none => "session")),
                   ("expires_with_session",
                      .bool (preferences.duration == some "session")),
                   ("usage_example",
                      .str (generateUsageExamplesCli context.serviceType port)),
                   ("raw_output", .str stdout)])

/-- `extractValue(lines, prefix)`: the text after the first occurrence of the
label in the first line containing it (`line.split(prefix)[1]?.trim()`),
`null` when no line carries the label. -/
def extractValue (lines : List (List Char)) (pat : List Char) : JsonVal :=
  match lines.find? (fun l => containsSub pat l) with
  | none => .nul
  | some l =>
      match afterFirst pat l with
      | none => .nul
      | some rest => .str (String.mk (trim (upToPat pat rest)))

/-- `extractPorts(lines)`: one `{port, description}` object per line matching
the port-table row pattern. -/
def extractPorts (lines : List (List Char)) : List JsonVal :=
  lines.filterMap (fun l =>
    (portRowMatch l).map (fun pr =>
      JsonVal.obj [("port", .num pr.1), ("description", .str (String.mk pr.2))]))

/-- `parseStatusOutput`: line-parse the plain-text `styxy status` output. -/
def parseStatusOutput (output : String) : JsonVal :=
  let lines := splitLines output.data
  .obj
    [("daemon_running",
        .bool (!(containsSub "not running".data output.data) &&
               !(containsSub "failed".data output.data))),
     ("pid", extractValue lines "PID:".data),
     ("uptime", extractValue lines "Uptime:".data),
     ("active_ports", .arr (extractPorts lines)),
     ("config_path", extractValue lines "Config:".data),
     ("log_path", extractValue lines "Logs:".data),
     ("raw_output", .str output)]

/-- The plain-text leg of `cliGetStatus`: parse `styxy status`, or on total
failure return the degraded not-running result (never a thrown error). -/
def cliGetStatusText (env : CliEnv) : JsonVal :=
  match env.exec "styxy status" with
  | .ok stdout => parseStatusOutput stdout
  | .error e =>
      .obj
        [("daemon_running", .bool false),
         ("error", .str ("Status check failed: " ++ e.message)),
         ("active_ports", .arr []),
         ("recent_errors", .arr [.str ("CLI error: " ++ e.message)])]

/-- `cliGetStatus`: try the structured invocation first (`styxy status
--json` plus `JSON.parse`); on any failure there, fall through to the
plain-text leg. -/
def cliGetStatus (env : CliEnv) : JsonVal :=
  match env.exec "styxy status --json" with
  | .ok stdout =>
      match env.parseJson stdout with
      | some v => v
      | none => cliGetStatusText env
  | .error _ => cliGetStatusText env

/-- The argument list built by `cliCleanup` (JS truthiness: port `0` is
falsy and not pushed). -/
def cliCleanupArgs (force : Bool) (port : Option Nat) : List String :=
  ["cleanup"] ++ (if force then ["--force"] else []) ++
  (match port with
   | some p => if p = 0 then [] else ["--port", toString p]
   | none => [])

/-- `extractReleasedPorts`: the values of all `Released port <N>`
occurrences, in order. -/
def extractReleasedPorts (output : String) : List Nat :=
  scanPorts output.data

/-- `cliCleanup`: run the CLI cleanup; on failure, report (never throw). -/
def cliCleanup (env : CliEnv) (force : Bool) (port : Option Nat) : JsonVal :=
  match env.exec (styxyInvocation (cliCleanupArgs force port)) with
  | .ok stdout =>
      .obj
        [("released_ports",
            .arr ((extractReleasedPorts stdout).map (fun n => .num n))),
         ("raw_output", .str stdout)]
  | .error e =>
      .obj
        [("released_ports", .arr []),
         ("errors", .arr [.str e.message]),
         ("raw_output", .str e.stdout)]

/-- `fallbackToCliCommand`: dispatch the logical command to its CLI
translation; command types without a translation throw. -/
def fallbackToCliCommand (env : CliEnv) : Command → Except String JsonVal
  | .allocate context preferences _ => cliAllocatePort env context preferences
  | .status _ => .ok (cliGetStatus env)
  | .cleanup force port _ => .ok (cliCleanup env force port)
  | c => .error ("CLI fallback not implemented for command type: " ++ c.typeName)

/-! ## Daemon Channel

`connectToDaemon` resolves to a socket, or rejects on the socket `error`
event (daemon unreachable) or on the 5-second connect timeout.  Its settled
outcome — which also absorbs the config lookup it performs first — is an
environment value.  After a successful connect, `sendDaemonCommand` writes
the command and the inner promise settles with the first of: a successful
decode of the accumulated response, the socket `error` event, or the
10-second command timer; that settled outcome is the second environment
value. -/

/-- Settled outcome of `connectToDaemon`. -/
inductive ConnectOutcome where
  | opened
  | connError (message : String)
  | connTimeout
deriving Repr, DecidableEq

/-- Settled outcome of the post-connect send/receive promise. -/
inductive CallOutcome where
  | response (v : JsonVal)
  | sockError (message : String)
  | callTimeout

/-- Environment of one `sendDaemonCommand` call. -/
structure SendEnv where
  connect : ConnectOutcome
  call : CallOutcome
  cli : CliEnv

/-- The rejection message `connectToDaemon` settles with. -/
def connectErrorMessage : ConnectOutcome → String
  | .connError m => "Daemon not reachable: " ++ m ++ ". Try 'styxy daemon start'"
  | .connTimeout => "Daemon connection timeout. Check if styxy daemon is running."
  | .opened => ""

/-- `sendDaemonCommand`.  The result pairs the settled value (`Except` for a
rejection) with the list of commands handed to `fallbackToCliCommand`.

The `try`/`catch` of the source only guards the `await this.connectToDaemon()`:
the inner promise is *returned* (not awaited), so by the time it rejects the
`try` body has already completed and the rejection bypasses the `catch` —
post-connect socket errors and the 10-second command timeout therefore
propagate to the caller and do not reach the CLI fallback. -/
def sendDaemonCommand (env : SendEnv) (command : Command) :
    Except String JsonVal × List Command :=
  match env.connect with
  | .opened =>
      match env.call with
      | .response v => (.ok v, [])
      | .sockError m => (.error m, [])
      | .callTimeout => (.error "Command timeout", [])
  | _ => (fallbackToCliCommand env.cli command, [command])

/-! ## Singleton Coordinator (`singleton.js`) -/

/-- The JSON object `acquire` writes to the lock file. -/
structure LockRecord where
  pid : Nat
  started : String
  hostname : String
  command : String
deriving Repr, DecidableEq

/-- Content of the lock file: either a record (content `JSON.parse` accepts)
or unparseable bytes. -/
inductive LockFileContent where
  | valid (r : LockRecord)
  | garbage (raw : String)
deriving Repr, DecidableEq

/-- `readLockFile`: parse the lock file, `null` on any parse failure. -/
def readLockFile : LockFileContent → Option LockRecord
  | .valid r => some r
  | .garbage _ => none

/-- The filesystem and process table visible to the lock manager: the lock
file (if present) and process liveness (`process.kill(pid, 0)` succeeding). -/
structure World where
  lockFile : Option LockFileContent
  alive : Nat → Bool

/-- `isProcessRunning(pid)`. -/
def isProcessRunning (w : World) (pid : Nat) : Bool := w.alive pid

/-- The identity of the current process as `acquire` records it. -/
structure SelfProc where
  pid : Nat
  now : String
  hostname : String
  argv : String
deriving Repr, DecidableEq

/-- The fresh `LockRecord` written when the lock is claimed. -/
def freshLockRecord (self : SelfProc) : LockRecord :=
  { pid := self.pid, started := self.now,
    hostname := self.hostname, command := self.argv }

/-- `SingletonLock.acquire()` on an error-free filesystem (the source's
`try`/`catch` returns `false` only on I/O exceptions, which this state
model cannot produce): if a lock file exists, parse it; a live recorded
pid means another instance owns the role (return `false`, no side
effects); otherwise the stale file is deleted and, as in the no-file case,
a fresh record for the current process is written and `true` returned.
Takes the prior `this.acquired` flag (left untouched on the
another-instance path) and returns (result, new `acquired` flag, new
world). -/
def acquire (self : SelfProc) (acquired : Bool) (w : World) :
    Bool × Bool × World :=
  match w.lockFile with
  | some content =>
      match readLockFile content with
      | some r =>
          if isProcessRunning w r.pid then (false, acquired, w)
          else
            (true, true, { w with lockFile := some (.valid (freshLockRecord self)) })
      | none =>
          (true, true, { w with lockFile := some (.valid (freshLockRecord self)) })
  | none =>
      (true, true, { w with lockFile := some (.valid (freshLockRecord self)) })

/-- `SingletonLock.release()`: delete the lock file only when this instance
holds it; idempotent. Returns (new `acquired` flag, new world). -/
def release (acquired : Bool) (w : World) : Bool × World :=
  if !acquired then (acquired, w)
  else (false, { w with lockFile := none })

/-- `SingletonLock.getLockInfo()`. -/
def getLockInfo (w : World) : Option LockRecord :=
  match w.lockFile with
  | none => none
  | some content => readLockFile content

/-! ## Config Resolver

The class body defines `getConfig` twice (lines 16 and 344 of the client);
in a JavaScript class the later method definition rebinds the name, so
`this.getConfig(...)` always dispatches to the tool-facing variant of line
344.  Both bodies are embedded: the shadowed resolver of line 16 as
`getConfigShadowed`, and the method actually bound to the name as
`getConfig` — whose first statement `await this.getConfig()` re-enters
itself, embedded below with explicit fuel (fuel exhaustion, `none`, models
the recursion never producing a value). -/

/-- Environment of the config resolver: shell invocations, `JSON.parse`,
file reads (`none` models a `readFile` exception) and the home directory. -/
structure ConfigEnv where
  exec : String → Except ExecErr String
  parseJson : String → Option JsonVal
  fileRead : String → Option String
  homedir : String

/-- `{ ...parsed, config_path: configPath }`. -/
def withConfigPath (parsed : JsonVal) (p : String) : JsonVal :=
  match parsed with
  | .obj _ => setField parsed "config_path" (.str p)
  | _ => .obj [("config_path", .str p)]

/-- `loadDefaultConfig`: first candidate config file that reads and parses
wins (tagged with its path); otherwise the hardcoded minimal default. -/
def loadDefaultConfig (env : ConfigEnv) : JsonVal :=
  let paths := [env.homedir ++ "/.styxy/config.json",
                env.homedir ++ "/.config/styxy/config.json",
                "/etc/styxy/config.json"]
  let firstHit := paths.filterMap (fun p =>
    match env.fileRead p with
    | none => none
    | some content =>
        match env.parseJson content with
        | none => none
        | some parsed => some (withConfigPath parsed p))
  match firstHit with
  | hit :: _ => hit
  | [] =>
      .obj
        [("daemon", .obj
            [("socket_path", .str (env.homedir ++ "/.styxy/daemon.sock")),
             ("port_range", .obj [("start", .num 3000), ("end", .num 9999)])]),
         ("config_path", .str "not found")]

/-- The shadowed resolver of line 16 (unreachable through `this.getConfig()`
dispatch): consult the CLI, fall back to `loadDefaultConfig`, cache in
`this.config` (initially `null`; the guard is JS truthiness of the cache).
Returns (result, new cache). -/
def getConfigShadowed (config : JsonVal) (env : ConfigEnv) : JsonVal × JsonVal :=
  if truthy config then (config, config)
  else
    let c :=
      match env.exec "styxy config show --json" with
      | .ok stdout =>
          match env.parseJson stdout with
          | some v => v
          | none => loadDefaultConfig env
      | .error _ => loadDefaultConfig env
    (c, c)

/-- `validateConfig`: (errors, isValid). -/
def validateConfig (config : JsonVal) : List String × Bool :=
  if !truthy ((getF config "daemon").getD .nul) then
    (["Missing daemon configuration"], false)
  else
    let d := (getF config "daemon").getD .nul
    let errs :=
      (if truthy ((getF d "socket_path").getD .nul) then []
       else ["Missing daemon socket_path"]) ++
      (if truthy ((getF d "port_range").getD .nul) then []
       else ["Missing port_range configuration"])
    (errs, errs.isEmpty)

/-- The `getConfig(options = {})` actually bound to the name (line 344).
Its first statement `const config = await this.getConfig()` re-enters this
very method (with default options, both flags falsy), so the recursion has
no base case; `none` is the out-of-fuel marker — the call never settles
with a value. -/
def getConfig : Nat → ConfigOptions → ConfigEnv → Option JsonVal
  | 0, _, _ => none
  | fuel + 1, options, env =>
      match getConfig fuel ⟨false, false⟩ env with
      | none => none
      | some config =>
          if options.validate then
            let vr := validateConfig config
            some (setField
              (setField config "validation_errors" (.arr (vr.1.map .str)))
              "is_valid" (.bool vr.2))
          else if !options.showSensitive then
            some (removeField (removeField config "secrets") "tokens")
          else some config

/-! ## Helper lemmas about the string primitives -/

/-- `containsSub` decides substring occurrence. -/
theorem containsSub_correct (pat : List Char) :
    ∀ s : List Char, containsSub pat s = true ↔ pat <:+: s := by
  intro s
  induction s with
  | nil =>
      simp only [containsSub, Bool.or_false, List.isPrefixOf_iff_prefix,
        List.infix_nil, List.prefix_nil]
  | cons a t ih =>
      simp only [containsSub, Bool.or_eq_true, List.isPrefixOf_iff_prefix, ih,
        List.infix_cons_iff]

theorem length_dropWhile_le (p : Char → Bool) (l : List Char) :
    (l.dropWhile p).length ≤ l.length := by
  induction l with
  | nil => simp
  | cons a t ih =>
      by_cases h : p a
      · simp only [List.dropWhile_cons, h, if_true]
        exact Nat.le_trans ih (Nat.le_succ _)
      · simp [List.dropWhile_cons, h]

/-- A pattern avoiding `c` matches as a prefix across `x ++ c :: y` exactly
when it matches as a prefix of `x`. -/
theorem isPrefixOf_append_cons (pat : List Char) (c : Char) (hc : c ∉ pat) :
    ∀ x y : List Char, pat.isPrefixOf (x ++ c :: y) = pat.isPrefixOf x := by
  induction pat with
  | nil => intro x y; cases x <;> simp [List.isPrefixOf]
  | cons p ps ih =>
      intro x y
      cases x with
      | nil =>
          have hpc : (p == c) = false := by
            simp only [beq_eq_false_iff_ne]
            intro h
            exact hc (h ▸ List.mem_cons_self p ps)
          simp [List.isPrefixOf, hpc]
      | cons a t =>
          have : c ∉ ps := fun h => hc (List.mem_cons_of_mem p h)
          simp [List.isPrefixOf, ih this]

theorem takeWhile_append_cons (p : Char → Bool) (c : Char) (hc : p c = false) :
    ∀ x y : List Char, (x ++ c :: y).takeWhile p = x.takeWhile p := by
  intro x y
  induction x with
  | nil => simp [List.takeWhile_cons, hc]
  | cons a t ih => by_cases h : p a <;> simp [List.takeWhile_cons, h, ih]

theorem dropWhile_append_cons (p : Char → Bool) (c : Char) (hc : p c = false) :
    ∀ x y : List Char, (x ++ c :: y).dropWhile p = x.dropWhile p ++ c :: y := by
  intro x y
  induction x with
  | nil => simp [List.dropWhile_cons, hc]
  | cons a t ih => by_cases h : p a <;> simp [List.dropWhile_cons, h, ih]

/-- A digit-free block in front does not change the first digit run. -/
theorem firstDigitRun_append (pre : List Char) (h : ∀ c ∈ pre, c.isDigit = false) :
    ∀ rest : List Char, firstDigitRun (pre ++ rest) = firstDigitRun rest := by
  intro rest
  induction pre with
  | nil => rfl
  | cons a t ih =>
      have ha : a.isDigit = false := h a (List.mem_cons_self a t)
      have ht : ∀ c ∈ t, c.isDigit = false := fun c hm => h c (List.mem_cons_of_mem a hm)
      simp [firstDigitRun, ha, ih ht]

/-- A digit-free string has no digit run. -/
theorem firstDigitRun_eq_none (l : List Char) (h : ∀ c ∈ l, c.isDigit = false) :
    firstDigitRun l = none := by
  have := firstDigitRun_append l h []
  simpa using this

/-- The fuel of `scanPortsAux` is irrelevant once it covers the input. -/
theorem scanPortsAux_eq_of_le :
    ∀ (f : Nat) (s : List Char), s.length ≤ f →
      scanPortsAux f s = scanPortsAux s.length s := by
  intro f
  induction f using Nat.strong_induction_on with
  | _ f ih =>
    intro s hs
    cases f with
    | zero =>
        have hnil : s = [] := List.eq_nil_of_length_eq_zero (Nat.le_zero.mp hs)
        subst hnil; rfl
    | succ n =>
        cases s with
        | nil => rfl
        | cons c rest =>
            have hrest : rest.length ≤ n := by
              simpa [List.length_cons] using hs
            simp only [List.length_cons, scanPortsAux]
            by_cases hp : relPat.isPrefixOf (c :: rest) = true
            · simp only [hp, if_true]
              by_cases hd : (rest.drop 13).takeWhile Char.isDigit = []
              · simp only [hd, if_true]
                rw [ih n (Nat.lt_succ_self n) rest hrest,
                  ih rest.length (Nat.lt_succ_of_le hrest) rest (Nat.le_refl _)]
              · simp only [hd, if_false]
                have hx : ((rest.drop 13).dropWhile Char.isDigit).length ≤
                    rest.length := by
                  have h1 := length_dropWhile_le Char.isDigit (rest.drop 13)
                  have h2 := List.length_drop 13 rest
                  omega
                rw [ih n (Nat.lt_succ_self n) _ (Nat.le_trans hx hrest),
                  ih rest.length (Nat.lt_succ_of_le hrest) _ hx]
            · simp only [hp, Bool.false_eq_true, if_false]
              rw [ih n (Nat.lt_succ_self n) rest hrest,
                ih rest.length (Nat.lt_succ_of_le hrest) rest (Nat.le_refl _)]

/-- One-step unfolding of the global-regex scan. -/
theorem scanPorts_cons (c : Char) (rest : List Char) :
    scanPorts (c :: rest) =
      if relPat.isPrefixOf (c :: rest) then
        if (rest.drop 13).takeWhile Char.isDigit = [] then scanPorts rest
        else
          digitsVal ((rest.drop 13).takeWhile Char.isDigit) ::
            scanPorts ((rest.drop 13).dropWhile Char.isDigit)
      else scanPorts rest := by
  show scanPortsAux ((c :: rest).length) (c :: rest) = _
  simp only [List.length_cons, scanPortsAux]
  by_cases hp : relPat.isPrefixOf (c :: rest) = true
  · simp only [hp, if_true]
    by_cases hd : (rest.drop 13).takeWhile Char.isDigit = []
    · simp only [hd, if_true]
      rfl
    · simp only [hd, if_false, scanPorts]
      congr 1
      exact scanPortsAux_eq_of_le rest.length _ (by
        have h1 := length_dropWhile_le Char.isDigit (rest.drop 13)
        have h2 := List.length_drop 13 rest
        omega)
  · simp only [hp, if_false]
    rfl

/-- The scan distributes over a newline: neither the pattern literal nor a
digit run can contain `'\n'`, so no capture straddles a line boundary. -/
theorem scanPorts_newline_split (l r : List Char) :
    scanPorts (l ++ '\n' :: r) = scanPorts l ++ scanPorts r := by
  generalize hn : l.length = n
  induction n using Nat.strong_induction_on generalizing l with
  | _ n ih =>
    cases l with
    | nil =>
        have hR : (('R' : Char) == '\n') = false := by decide
        have hpre : relPat.isPrefixOf ('\n' :: r) = false := by
          rw [show relPat = 'R' :: "eleased port ".data from rfl]
          simp [List.isPrefixOf, hR]
        simp [scanPorts_cons, hpre, scanPorts, scanPortsAux]
    | cons c t =>
        have hNl : ('\n' : Char) ∉ relPat := by decide
        have hform : (c :: t) ++ '\n' :: r = c :: (t ++ '\n' :: r) := rfl
        have hpre : relPat.isPrefixOf (c :: (t ++ '\n' :: r)) =
            relPat.isPrefixOf (c :: t) := by
          have h := isPrefixOf_append_cons relPat '\n' hNl (c :: t) r
          simpa using h
        have hlen : t.length < n := by
          subst hn; simp [List.length_cons]
        rw [hform, scanPorts_cons, scanPorts_cons, hpre]
        by_cases hp : relPat.isPrefixOf (c :: t) = true
        · simp only [hp, if_true]
          have hlenpat : 13 ≤ t.length := by
            have hle := (List.isPrefixOf_iff_prefix.mp hp).length_le
            have h14 : relPat.length = 14 := by decide
            rw [h14, List.length_cons] at hle
            omega
          have hdrop : (t ++ '\n' :: r).drop 13 = t.drop 13 ++ '\n' :: r :=
            List.drop_append_of_le_length hlenpat
          have hnd : Char.isDigit '\n' = false := by decide
          have htake : ((t ++ '\n' :: r).drop 13).takeWhile Char.isDigit =
              (t.drop 13).takeWhile Char.isDigit := by
            rw [hdrop, takeWhile_append_cons _ _ hnd]
          rw [htake]
          by_cases hd : (t.drop 13).takeWhile Char.isDigit = []
          · simp only [hd, if_true]
            exact ih t.length hlen t rfl
          · simp only [hd, if_false]
            have hdw : ((t ++ '\n' :: r).drop 13).dropWhile Char.isDigit =
                (t.drop 13).dropWhile Char.isDigit ++ '\n' :: r := by
              rw [hdrop, dropWhile_append_cons _ _ hnd]
            have hlen2 : ((t.drop 13).dropWhile Char.isDigit).length < n := by
              have h1 := length_dropWhile_le Char.isDigit (t.drop 13)
              have h2 := List.length_drop 13 t
              omega
            rw [hdw, ih _ hlen2 _ rfl, List.cons_append]
        · simp only [hp, if_false]
          exact ih t.length hlen t rfl

/-- A whole-line capture: the scan of `Released port <digits>` is exactly
that one port value. -/
theorem scanPorts_rel_digits (d : List Char) (hd : d ≠ [])
    (hall : ∀ ch ∈ d, ch.isDigit = true) :
    scanPorts (relPat ++ d) = [digitsVal d] := by
  have hform : relPat ++ d = 'R' :: ("eleased port ".data ++ d) := rfl
  rw [hform, scanPorts_cons]
  have hpre : relPat.isPrefixOf ('R' :: ("eleased port ".data ++ d)) = true := by
    rw [← hform]
    exact List.isPrefixOf_iff_prefix.mpr (List.prefix_append relPat d)
  have hdrop : ("eleased port ".data ++ d).drop 13 = d := by
    have h13 : ("eleased port ".data).length = 13 := by decide
    rw [← h13, List.drop_left]
  have htake : d.takeWhile Char.isDigit = d :=
    List.takeWhile_eq_self_iff.mpr hall
  have hdw : d.dropWhile Char.isDigit = [] :=
    List.dropWhile_eq_nil_iff.mpr hall
  simp only [hpre, if_true, hdrop, htake, hdw, hd, if_false]
  simp [scanPorts, scanPortsAux]

/-! ## Claim C1 -/

def cliEnvC1 : CliEnv :=
  { exec := fun _ => .error { message := "ENOENT", stdout := "" },
    parseJson := fun _ => none }

def cmdC1 : Command := .status { includePorts := true, includeRecentErrors := true }

def sendEnvTimeoutC1 : SendEnv :=
  { connect := .opened, call := .callTimeout, cli := cliEnvC1 }

def sendEnvSockErrC1 : SendEnv :=
  { connect := .opened, call := .sockError "read ECONNRESET", cli := cliEnvC1 }

def sendEnvConnFailC1 : SendEnv :=
  { connect := .connError "connect ENOENT", call := .callTimeout, cli := cliEnvC1 }

/-- C1, counterexample.  The claim says a call timeout after 10 time-units or
a channel-level error triggers exactly one CLI-fallback invocation and is
never surfaced to the caller.  At a concrete environment whose connection
opens and whose call then times out (resp. errors), `sendDaemonCommand`
invokes the fallback zero times and surfaces the failure — the
`return new Promise` inside `try` bypasses the `catch`. -/
theorem sendDaemonCommand_fallback_claim_false :
    (sendDaemonCommand sendEnvTimeoutC1 cmdC1).2 = [] ∧
    (sendDaemonCommand sendEnvTimeoutC1 cmdC1).1 = .error "Command timeout" ∧
    (sendDaemonCommand sendEnvSockErrC1 cmdC1).2 = [] ∧
    (sendDaemonCommand sendEnvSockErrC1 cmdC1).1 = .error "read ECONNRESET" :=
  ⟨rfl, rfl, rfl, rfl⟩

/-- C1, amended: only connection-phase failures (open error, connect
timeout) transfer control to the CLI Fallback Translator — exactly once,
with the identical command, never surfacing the channel failure; once the
connection has opened, a call timeout or a channel-level error is surfaced
to the caller as a failure and the fallback is not invoked. -/
theorem sendDaemonCommand_fallback_routing (env : SendEnv) (command : Command) :
    (env.connect ≠ .opened →
      sendDaemonCommand env command =
        (fallbackToCliCommand env.cli command, [command])) ∧
    (env.connect = .opened →
      (sendDaemonCommand env command).2 = [] ∧
      (env.call = .callTimeout →
        (sendDaemonCommand env command).1 = .error "Command timeout") ∧
      (∀ m, env.call = .sockError m →
        (sendDaemonCommand env command).1 = .error m)) := by
  obtain ⟨conn, call, cli⟩ := env
  cases conn <;> cases call <;> simp [sendDaemonCommand]

/-- Witness for C1's amended theorem at a concrete connection failure. -/
theorem sendDaemonCommand_fallback_routing_witness :
    sendDaemonCommand sendEnvConnFailC1 cmdC1 =
      (fallbackToCliCommand cliEnvC1 cmdC1, [cmdC1]) :=
  (sendDaemonCommand_fallback_routing sendEnvConnFailC1 cmdC1).1 (by decide)

/-! ## Claim C2 -/

/-- C2.  The claim says `resolve()` never fails and always returns a usable
(and cached) `Config`.  In the source, the class body binds the name
`getConfig` to the tool-facing method of line 344, which shadows the
resolver of line 16; its first statement `await this.getConfig()` re-enters
itself with no base case.  Whatever fuel the recursion is given, no
`Config` is ever produced. -/
theorem getConfig_never_returns :
    ∀ (fuel : Nat) (options : ConfigOptions) (env : ConfigEnv),
      getConfig fuel options env = none := by
  intro fuel
  induction fuel with
  | zero => intro _ _; rfl
  | succ n ih => intro options env; simp [getConfig, ih]

/-! ## Claim C3 -/

def cliEnvC3text : CliEnv :=
  { exec := fun s =>
      if s = "styxy status" then .ok "Styxy daemon running\nPID: 4121"
      else .error { message := "unknown option: --json", stdout := "" },
    parseJson := fun _ => none }

def cliEnvC3fail : CliEnv :=
  { exec := fun _ => .error { message := "spawn styxy ENOENT", stdout := "" },
    parseJson := fun _ => none }

/-- C3, counterexample.  The claim says the Result's field set is fixed by
the command type alone, never by which (sub-)path answered.  For the status
command type, the plain-text CLI sub-path and the total-failure CLI
sub-path produce two different field sets at concrete environments. -/
theorem statusResult_shape_claim_false :
    fieldNames (cliGetStatus cliEnvC3text) =
      ["daemon_running", "pid", "uptime", "active_ports", "config_path",
       "log_path", "raw_output"] ∧
    fieldNames (cliGetStatus cliEnvC3fail) =
      ["daemon_running", "error", "active_ports", "recent_errors"] ∧
    fieldNames (cliGetStatus cliEnvC3text) ≠
      fieldNames (cliGetStatus cliEnvC3fail) := by
  refine ⟨rfl, rfl, ?_⟩
  decide

/-- C3, amended: each sub-path of the status fallback has a field set fixed
by that sub-path — the plain-text parse always yields the seven-field shape
and the total-failure path always yields the four-field degraded shape —
but the two shapes differ, so the field set is not determined by the
command type alone (and the structured sub-path returns whatever object the
CLI printed). -/
theorem statusFieldSet_fixed_per_subpath :
    (∀ output : String,
      fieldNames (parseStatusOutput output) =
        ["daemon_running", "pid", "uptime", "active_ports", "config_path",
         "log_path", "raw_output"]) ∧
    (∀ (env : CliEnv) (e : ExecErr), env.exec "styxy status" = .error e →
      fieldNames (cliGetStatusText env) =
        ["daemon_running", "error", "active_ports", "recent_errors"]) ∧
    (["daemon_running", "pid", "uptime", "active_ports", "config_path",
      "log_path", "raw_output"] ≠
     ["daemon_running", "error", "active_ports", "recent_errors"]) := by
  refine ⟨fun output => rfl, fun env e h => ?_, by decide⟩
  simp [cliGetStatusText, h, fieldNames]

/-- Witness for C3's amended theorem at a concrete failing environment. -/
theorem statusFieldSet_fixed_per_subpath_witness :
    fieldNames (cliGetStatusText cliEnvC3fail) =
      ["daemon_running", "error", "active_ports", "recent_errors"] :=
  statusFieldSet_fixed_per_subpath.2.1 cliEnvC3fail
    { message := "spawn styxy ENOENT", stdout := "" } rfl

/-! ## Claim C4 -/

/-- C4.  Whenever a lock file exists whose content does not parse or whose
recorded pid is not alive, `acquire()` deletes the stale file, writes a
fresh `LockRecord` for the current process (in particular carrying the
current pid), and returns `true`. -/
theorem acquire_stale_lock (self : SelfProc) (acquired : Bool) (w : World)
    (content : LockFileContent)
    (hfile : w.lockFile = some content)
    (hstale : ∀ r, readLockFile content = some r → w.alive r.pid = false) :
    acquire self acquired w =
      (true, true, { w with lockFile := some (.valid (freshLockRecord self)) }) ∧
    (freshLockRecord self).pid = self.pid := by
  refine ⟨?_, rfl⟩
  cases content with
  | valid r =>
      have hdead := hstale r rfl
      simp [acquire, hfile, readLockFile, isProcessRunning, hdead]
  | garbage raw => simp [acquire, hfile, readLockFile]

def selfC4 : SelfProc :=
  { pid := 4242, now := "2024-01-01T00:00:00Z", hostname := "devbox",
    argv := "node index.js" }

def worldC4 : World :=
  { lockFile := some (.valid
      { pid := 999, started := "2023-12-31T00:00:00Z", hostname := "devbox",
        command := "node index.js" }),
    alive := fun p => p == 4242 }

/-- Witness for C4 at a concrete dead-pid lock file. -/
theorem acquire_stale_lock_witness :
    acquire selfC4 false worldC4 =
      (true, true,
        { worldC4 with lockFile := some (.valid (freshLockRecord selfC4)) }) ∧
    (freshLockRecord selfC4).pid = selfC4.pid :=
  acquire_stale_lock selfC4 false worldC4 _ rfl
    (by
      intro r hr
      simp [readLockFile] at hr
      subst hr
      decide)

/-! ## Claim C5 -/

/-- C5.  Starting with no lock file and a live own pid, the first
`acquire()` returns `true` and writes the fresh record; a second
`acquire()` without an intervening `release()` returns `false` (it finds
the lock file naming the process's own live pid) and leaves the lock file
exactly as the first call wrote it. -/
theorem acquire_twice_same_process (self : SelfProc) (w : World)
    (hnofile : w.lockFile = none) (halive : w.alive self.pid = true) :
    (acquire self false w).1 = true ∧
    (acquire self false w).2.2.lockFile = some (.valid (freshLockRecord self)) ∧
    (freshLockRecord self).pid = self.pid ∧
    (acquire self (acquire self false w).2.1 (acquire self false w).2.2).1 =
      false ∧
    (acquire self (acquire self false w).2.1
        (acquire self false w).2.2).2.2.lockFile =
      (acquire self false w).2.2.lockFile := by
  simp [acquire, hnofile, readLockFile, isProcessRunning, freshLockRecord, halive]

def selfC5 : SelfProc := { pid := 77, now := "t0", hostname := "h", argv := "node" }

def worldC5 : World := { lockFile := none, alive := fun p => p == 77 }

/-- Witness for C5 at a concrete fresh process. -/
theorem acquire_twice_same_process_witness :
    (acquire selfC5 false worldC5).1 = true ∧
    (acquire selfC5 false worldC5).2.2.lockFile =
      some (.valid (freshLockRecord selfC5)) ∧
    (freshLockRecord selfC5).pid = selfC5.pid ∧
    (acquire selfC5 (acquire selfC5 false worldC5).2.1
        (acquire selfC5 false worldC5).2.2).1 = false ∧
    (acquire selfC5 (acquire selfC5 false worldC5).2.1
        (acquire selfC5 false worldC5).2.2).2.2.lockFile =
      (acquire selfC5 false worldC5).2.2.lockFile :=
  acquire_twice_same_process selfC5 worldC5 rfl (by decide)

/-! ## Claim C7 -/

/-- C7.  When both status invocations fail, the fallback returns the
degraded Result: daemon not running, empty port list, a non-empty
recent-errors list — and the status fallback never propagates an exception
(`fallbackToCliCommand` wraps the total function `cliGetStatus` in `.ok`). -/
theorem cliGetStatus_total_failure (env : CliEnv) (e1 e2 : ExecErr)
    (h1 : env.exec "styxy status --json" = .error e1)
    (h2 : env.exec "styxy status" = .error e2) :
    getF (cliGetStatus env) "daemon_running" = some (.bool false) ∧
    getF (cliGetStatus env) "active_ports" = some (.arr []) ∧
    getF (cliGetStatus env) "recent_errors" =
      some (.arr [.str ("CLI error: " ++ e2.message)]) ∧
    [JsonVal.str ("CLI error: " ++ e2.message)] ≠ [] ∧
    (∀ options, fallbackToCliCommand env (.status options) =
      .ok (cliGetStatus env)) := by
  simp [cliGetStatus, cliGetStatusText, h1, h2, getF, fallbackToCliCommand,
    List.find?]

def cliEnvC7 : CliEnv :=
  { exec := fun _ => .error { message := "spawn styxy ENOENT", stdout := "" },
    parseJson := fun _ => none }

/-- Witness for C7 at a concrete environment where both invocations fail. -/
theorem cliGetStatus_total_failure_witness :
    getF (cliGetStatus cliEnvC7) "daemon_running" = some (.bool false) ∧
    getF (cliGetStatus cliEnvC7) "active_ports" = some (.arr []) ∧
    getF (cliGetStatus cliEnvC7) "recent_errors" =
      some (.arr [.str "CLI error: spawn styxy ENOENT"]) ∧
    fallbackToCliCommand cliEnvC7
        (.status { includePorts := true, includeRecentErrors := true }) =
      .ok (cliGetStatus cliEnvC7) := by
  have h := cliGetStatus_total_failure cliEnvC7
    { message := "spawn styxy ENOENT", stdout := "" }
    { message := "spawn styxy ENOENT", stdout := "" } rfl rfl
  exact ⟨h.1, h.2.1, h.2.2.1, h.2.2.2.2 _⟩

/-! ## Claim C6 -/

def ctxC6 : AllocContext :=
  { serviceType := "web", projectName := "demo", workingDir := "/home/user/demo",
    claudeSessionId := "sess-1" }

def prefsC6 : AllocPreferences := { port := none, duration := some "session" }

def cliEnvC6 : CliEnv :=
  { exec := fun _ => .ok "Allocation complete\nPort: 3042",
    parseJson := fun _ => none }

def cliEnvC6none : CliEnv :=
  { exec := fun _ => .ok "Cleaning caches\nDone", parseJson := fun _ => none }

/-- C6.  The spec's allocate scenario: service type `web`, project `demo`,
daemon unreachable, CLI printing a `Port: 3042` line — the fallback Result
carries `allocated_port = 3042` and `service_url = "http://localhost:3042"`.
And for every successful CLI invocation whose output has no line containing
the `Port:` marker, the fallback fails with the unparseable-output error
instead of returning a null port as success. -/
theorem cliAllocatePort_scenario_and_unparseable :
    (∃ v, cliAllocatePort cliEnvC6 ctxC6 prefsC6 = .ok v ∧
       getF v "allocated_port" = some (.num 3042) ∧
       getF v "service_url" = some (.str "http://localhost:3042")) ∧
    (∀ (env : CliEnv) (context : AllocContext) (preferences : AllocPreferences)
        (stdout : String),
       env.exec (styxyInvocation (cliAllocateArgs context preferences)) =
         .ok stdout →
       (∀ l ∈ splitLines (trim stdout.data), containsSub "Port:".data l = false) →
       cliAllocatePort env context preferences =
         .error
           "CLI allocation failed: Failed to parse allocated port from styxy output") := by
  constructor
  · exact ⟨_, rfl, rfl, rfl⟩
  · intro env context preferences stdout hexec hnone
    have hfind : findPortLine stdout = none := by
      rw [findPortLine, List.find?_eq_none]
      intro l hl
      simp [hnone l hl]
    simp [cliAllocatePort, hexec, hfind, portFromLine]

/-- Witness for C6's unparseable-output half at a markerless CLI output. -/
theorem cliAllocatePort_scenario_and_unparseable_witness :
    cliAllocatePort cliEnvC6none ctxC6 prefsC6 =
      .error
        "CLI allocation failed: Failed to parse allocated port from styxy output" :=
  cliAllocatePort_scenario_and_unparseable.2 cliEnvC6none ctxC6 prefsC6
    "Cleaning caches\nDone" rfl (by decide)

/-! ## Claim C8 -/

/-- C8.  Every `Released port <N>` occurrence of the cleanup CLI output is
collected, in order, into `released_ports` — an output with two such lines
(surrounded by arbitrary capture-free text) yields exactly `[N1, N2]` — and
a failed CLI invocation still returns a Result with an empty
`released_ports` list plus the captured error text instead of failing. -/
theorem cliCleanup_released_ports :
    (∀ (env : CliEnv) (force : Bool) (port : Option Nat)
        (a b c d1 d2 : List Char) (stdout : String),
       env.exec (styxyInvocation (cliCleanupArgs force port)) = .ok stdout →
       stdout.data =
         a ++ '\n' ::
           (relPat ++ d1 ++ '\n' :: (b ++ '\n' :: (relPat ++ d2 ++ '\n' :: c))) →
       scanPorts a = [] → scanPorts b = [] → scanPorts c = [] →
       d1 ≠ [] → (∀ ch ∈ d1, ch.isDigit = true) →
       d2 ≠ [] → (∀ ch ∈ d2, ch.isDigit = true) →
       getF (cliCleanup env force port) "released_ports" =
         some (.arr [.num (digitsVal d1), .num (digitsVal d2)])) ∧
    (∀ (env : CliEnv) (force : Bool) (port : Option Nat) (e : ExecErr),
       env.exec (styxyInvocation (cliCleanupArgs force port)) = .error e →
       cliCleanup env force port =
         .obj [("released_ports", .arr []), ("errors", .arr [.str e.message]),
               ("raw_output", .str e.stdout)]) := by
  constructor
  · intro env force port a b c d1 d2 stdout hexec hdata hA hB hC h1 h1d h2 h2d
    have hscan : scanPorts stdout.data = [digitsVal d1, digitsVal d2] := by
      rw [hdata, scanPorts_newline_split, hA, List.nil_append,
        scanPorts_newline_split, scanPorts_rel_digits d1 h1 h1d,
        scanPorts_newline_split, hB, List.nil_append,
        scanPorts_newline_split, scanPorts_rel_digits d2 h2 h2d, hC]
      rfl
    simp [cliCleanup, hexec, getF, extractReleasedPorts, hscan, List.find?]
  · intro env force port e hexec
    simp [cliCleanup, hexec]

def cleanupOutC8 : String :=
  "Cleanup starting\nReleased port 3042\nchecking\nReleased port 8080\ndone"

def cliEnvC8 : CliEnv :=
  { exec := fun _ => .ok cleanupOutC8, parseJson := fun _ => none }

def cliEnvC8fail : CliEnv :=
  { exec := fun _ =>
      .error { message := "Command failed: styxy cleanup --force",
               stdout := "partial" },
    parseJson := fun _ => none }

/-- Witness for C8 at a concrete two-release output and a concrete failed
invocation. -/
theorem cliCleanup_released_ports_witness :
    getF (cliCleanup cliEnvC8 true none) "released_ports" =
      some (.arr [.num 3042, .num 8080]) ∧
    cliCleanup cliEnvC8fail true none =
      .obj [("released_ports", .arr []),
            ("errors", .arr [.str "Command failed: styxy cleanup --force"]),
            ("raw_output", .str "partial")] :=
  ⟨cliCleanup_released_ports.1 cliEnvC8 true none
      "Cleanup starting".data "checking".data "done".data
      "3042".data "8080".data cleanupOutC8
      rfl (by decide) (by decide) (by decide) (by decide) (by decide)
      (by decide) (by decide) (by decide),
   cliCleanup_released_ports.2 cliEnvC8fail true none
      { message := "Command failed: styxy cleanup --force", stdout := "partial" }
      rfl⟩

/-! ## Claim C9 -/

def cliEnvC9 : CliEnv :=
  { exec := fun _ => .ok "Port: unavailable", parseJson := fun _ => none }

def ctxC9 : AllocContext :=
  { serviceType := "api", projectName := "p", workingDir := "/w",
    claudeSessionId := "s" }

def prefsC9 : AllocPreferences := { port := none, duration := none }

/-- C9.  When the first `Port:` line of the allocate CLI output contains a
digit, the extracted port is the value of the first maximal digit run
anywhere on that line (its position relative to the marker is irrelevant);
when that line contains no digit at all, the call fails with the wrapped
`TypeError` of `match(/\d+/)[0]` on `null` — not with the
unparseable-output error. -/
theorem allocate_port_extraction :
    (∀ (stdout : String) (pre digits post : List Char),
       findPortLine stdout = some (pre ++ digits ++ post) →
       (∀ c ∈ pre, c.isDigit = false) →
       digits ≠ [] →
       (∀ c ∈ digits, c.isDigit = true) →
       (∀ c ∈ post.take 1, c.isDigit = false) →
       portFromLine (findPortLine stdout) = .ok (some (digitsVal digits))) ∧
    (∀ (env : CliEnv) (context : AllocContext) (preferences : AllocPreferences)
        (stdout : String) (pl : List Char),
       env.exec (styxyInvocation (cliAllocateArgs context preferences)) =
         .ok stdout →
       findPortLine stdout = some pl →
       (∀ c ∈ pl, c.isDigit = false) →
       cliAllocatePort env context preferences =
         .error "CLI allocation failed: Cannot read properties of null (reading '0')") ∧
    ("CLI allocation failed: Cannot read properties of null (reading '0')" ≠
     "CLI allocation failed: Failed to parse allocated port from styxy output") := by
  refine ⟨?_, ?_, by decide⟩
  · intro stdout pre digits post hfind hpre hne hdig hpost
    rw [hfind]
    obtain ⟨d, ds, rfl⟩ : ∃ d ds, digits = d :: ds := by
      cases digits with
      | nil => exact absurd rfl hne
      | cons d ds => exact ⟨d, ds, rfl⟩
    have hd : d.isDigit = true := hdig d (List.mem_cons_self _ _)
    have hds : ∀ c ∈ ds, c.isDigit = true := fun c hc =>
      hdig c (List.mem_cons_of_mem _ hc)
    have htk : (ds ++ post).takeWhile Char.isDigit = ds := by
      cases post with
      | nil => rw [List.append_nil]; exact List.takeWhile_eq_self_iff.mpr hds
      | cons c t =>
          have hc : c.isDigit = false := hpost c (by simp)
          rw [takeWhile_append_cons _ _ hc]
          exact List.takeWhile_eq_self_iff.mpr hds
    have hrun : firstDigitRun (pre ++ d :: (ds ++ post)) = some (d :: ds) := by
      rw [firstDigitRun_append pre hpre]
      simp [firstDigitRun, hd, htk]
    simp [portFromLine, hrun]
  · intro env context preferences stdout pl hexec hfind hnd
    have hrun : firstDigitRun pl = none := firstDigitRun_eq_none pl hnd
    simp [cliAllocatePort, hexec, hfind, portFromLine, hrun]

/-- Witness for C9: a digit run preceding the marker is extracted; a
digitless `Port:` line raises the wrapped `TypeError`. -/
theorem allocate_port_extraction_witness :
    portFromLine (findPortLine "3 allocs ready Port: yes") = .ok (some 3) ∧
    cliAllocatePort cliEnvC9 ctxC9 prefsC9 =
      .error "CLI allocation failed: Cannot read properties of null (reading '0')" :=
  ⟨allocate_port_extraction.1 "3 allocs ready Port: yes"
      "".data "3".data " allocs ready Port: yes".data
      (by decide) (by decide) (by decide) (by decide) (by decide),
   allocate_port_extraction.2.1 cliEnvC9 ctxC9 prefsC9
      "Port: unavailable" "Port: unavailable".data rfl (by decide) (by decide)⟩

/-! ## Claim C10 -/

/-- C10.  `parseStatusOutput` reports the daemon as running exactly when the
plain-text output contains neither the substring `not running` nor the
substring `failed`; in particular an output that mentions `failed` anywhere
is reported as not running. -/
theorem parseStatusOutput_daemon_running (output : String) :
    (getF (parseStatusOutput output) "daemon_running" = some (.bool true) ↔
      ¬ ("not running".data <:+: output.data) ∧
      ¬ ("failed".data <:+: output.data)) ∧
    ("failed".data <:+: output.data →
      getF (parseStatusOutput output) "daemon_running" = some (.bool false)) := by
  have hval : getF (parseStatusOutput output) "daemon_running" =
      some (.bool (!(containsSub "not running".data output.data) &&
                   !(containsSub "failed".data output.data))) := rfl
  constructor
  · rw [hval]
    simp only [Option.some.injEq, JsonVal.bool.injEq, Bool.and_eq_true,
      Bool.not_eq_true', Bool.eq_false_iff, ne_eq, containsSub_correct]
  · intro hinf
    rw [hval]
    have hb : containsSub "failed".data output.data = true :=
      (containsSub_correct _ _).mpr hinf
    simp [hb]

/-- Witness for C10 at an output mentioning `failed`. -/
theorem parseStatusOutput_daemon_running_witness :
    getF (parseStatusOutput "Status: failed") "daemon_running" =
      some (.bool false) :=
  (parseStatusOutput_daemon_running "Status: failed").2 (by decide)

end Styxy
